import Mathlib

/-!
Verification of the booking-metrics aggregation engine of the
Holiday Rental Dashboard (`src/bookings.js`, the `processedData` memo,
lines 110-156).

Modelling conventions for the shallow embedding:
* A JavaScript `Date` is represented by its time value in milliseconds
  since the epoch; an Invalid Date (whose time value is `NaN`) is `none`.
  JavaScript relational comparisons involving `NaN` are false, and
  arithmetic involving `NaN` yields `NaN`; both are reflected in the
  `Option` matches below.
* JavaScript numbers are modelled as rationals (`ℚ`); the claims under
  study do not depend on floating-point rounding.
* An absent (`undefined`/empty) field is `none`; `x || fallback` on an
  absent or `NaN` value is `Option.getD` / an explicit match.
* A JavaScript object used as a map with string keys is an
  insertion-ordered association list; `Object.values` of the month map,
  whose keys are the integer month indexes (plus possibly the string
  key `"NaN"` coming from an Invalid Date), lists integer keys in
  ascending order first, then string keys in insertion order.
* `getMonth()` is computed from the time value with the standard
  civil-from-days decomposition, with the locale taken to be UTC.
-/

namespace HRD

/-- Time value of a JavaScript `Date` in milliseconds since the epoch;
`none` models an Invalid Date (`NaN` time value). -/
abbrev JSDate := Option Int

/-- One raw booking record as consumed by the dashboard (§3 of the spec;
field names follow the Lodgify payload used in `bookings.js`).
`creation_date` is `none` when the field is absent (falsy), and
`some none` when present but unparseable. -/
structure Booking where
  id : Nat
  guest : Option String
  arrival : JSDate
  departure : JSDate
  total_amount : Option ℚ
  source : Option String
  status : String
  creation_date : Option JSDate
deriving DecidableEq

/-- The comparison `new Date(x) >= new Date(s)` for a valid bound `s`:
false when `x` is an Invalid Date (`NaN >= s` is false). -/
def jsGe (a : JSDate) (s : Int) : Bool :=
  match a with
  | some t => decide (s ≤ t)
  | none => false

/-- The comparison `new Date(x) <= new Date(e)` for a valid bound `e`:
false when `x` is an Invalid Date. -/
def jsLe (a : JSDate) (e : Int) : Bool :=
  match a with
  | some t => decide (t ≤ e)
  | none => false

/-- The filter callback of `bookings.js` lines 114-119: the four-way
branch on which of the optional bounds are present. -/
def filterPred (startDate endDate : Option Int) (b : Booking) : Bool :=
  match startDate, endDate with
  | none, none => true
  | some s, none => jsGe b.arrival s
  | none, some e => jsLe b.arrival e
  | some s, some e => jsGe b.arrival s && jsLe b.arrival e

/-- `allBookings.filter(booking => ...)` — the date-range filter. -/
def filterBookings (startDate endDate : Option Int) (l : List Booking) : List Booking :=
  l.filter (filterPred startDate endDate)

/-- `filteredBookings.filter(b => b.status === 'Booked')` (line 121). -/
def confirmedBookings (l : List Booking) : List Booking :=
  l.filter (fun b => b.status == "Booked")

/-- `filteredBookings.filter(b => b.status === 'Cancelled')` (line 122). -/
def cancelledBookings (l : List Booking) : List Booking :=
  l.filter (fun b => b.status == "Cancelled")

/-- Milliseconds per day, `1000 * 3600 * 24` as written in the source. -/
def msPerDay : ℚ := 1000 * 3600 * 24

/-- `confirmedBookings.reduce((acc, b) => acc + (b.total_amount || 0), 0)` (line 125). -/
def totalRevenue (l : List Booking) : ℚ :=
  (confirmedBookings l).foldl (fun acc b => acc + b.total_amount.getD 0) 0

/-- `confirmedBookings.length` (line 126). -/
def totalBookings (l : List Booking) : Nat :=
  (confirmedBookings l).length

/-- One summand of line 127:
`((new Date(b.departure) - new Date(b.arrival)) / (1000*3600*24) || 0)`.
If either date is invalid the difference is `NaN`, and `NaN || 0` is `0`;
a zero difference also hits the `|| 0` fallback but yields `0` either way. -/
def nightsContrib (b : Booking) : ℚ :=
  match b.departure, b.arrival with
  | some d, some a => ((d - a : Int) : ℚ) / msPerDay
  | _, _ => 0

/-- `confirmedBookings.reduce((acc, b) => acc + (... || 0), 0)` (line 127). -/
def totalNights (l : List Booking) : ℚ :=
  (confirmedBookings l).foldl (fun acc b => acc + nightsContrib b) 0

/-- `totalBookings > 0 ? totalRevenue / totalBookings : 0` (line 128). -/
def avgBookingValue (l : List Booking) : ℚ :=
  if 0 < totalBookings l then totalRevenue l / (totalBookings l : ℚ) else 0

/-- `totalNights > 0 ? totalRevenue / totalNights : 0` (line 129). -/
def avgNightlyRate (l : List Booking) : ℚ :=
  if 0 < totalNights l then totalRevenue l / totalNights l else 0

/-- `totalBookings > 0 ? totalNights / totalBookings : 0` (line 130). -/
def avgLengthOfStay (l : List Booking) : ℚ :=
  if 0 < totalBookings l then totalNights l / (totalBookings l : ℚ) else 0

/-- One step of the lead-time reduce (lines 131-135):
skip records with a falsy `creation_date`; otherwise
`leadDays = (new Date(b.arrival) - new Date(b.creation_date)) / (1000*3600*24)`
and the contribution is `leadDays > 0 ? leadDays : 0`.  When either date
is invalid, `leadDays` is `NaN` and `NaN > 0` is false, so the
contribution is `0`. -/
def leadContrib (b : Booking) : ℚ :=
  match b.creation_date with
  | none => 0
  | some cd =>
    match b.arrival, cd with
    | some a, some c =>
      let leadDays : ℚ := ((a - c : Int) : ℚ) / msPerDay
      if 0 < leadDays then leadDays else 0
    | _, _ => 0

/-- `totalLeadTime` — the reduce of lines 131-135. -/
def totalLeadTime (l : List Booking) : ℚ :=
  (confirmedBookings l).foldl (fun acc b => acc + leadContrib b) 0

/-- `totalBookings > 0 ? totalLeadTime / totalBookings : 0` (line 136). -/
def avgLeadTime (l : List Booking) : ℚ :=
  if 0 < totalBookings l then totalLeadTime l / (totalBookings l : ℚ) else 0

/-- `filteredBookings.length > 0 ? (cancelledBookings.length / filteredBookings.length) * 100 : 0`
(line 137). -/
def cancellationRate (l : List Booking) : ℚ :=
  if 0 < l.length then ((cancelledBookings l).length : ℚ) / (l.length : ℚ) * 100 else 0

/-- ECMAScript `MonthFromTime(t)` (`new Date(t).getMonth()` in a UTC
locale): `Day(t) = floor(t / msPerDay)`, then the civil-from-days
decomposition into era, day-of-era, year-of-era and day-of-year, giving
the zero-based month. -/
def civilMonth (t : Int) : Nat :=
  let days : Int := Int.fdiv t 86400000
  let z : Int := days + 719468
  let doe : Nat := (z % 146097).toNat
  let yoe : Nat := (doe - doe / 1460 + doe / 36524 - doe / 146096) / 365
  let doy : Nat := doe - (365 * yoe + yoe / 4 - yoe / 100)
  let mp : Nat := (5 * doy + 2) / 153
  if mp < 10 then mp + 2 else mp - 10

/-- `new Date(booking.arrival).getMonth()` (line 144); `none` models the
`NaN` month index of an Invalid Date. -/
def monthKey (b : Booking) : Option Nat :=
  b.arrival.map civilMonth

/-- The `monthNames` array of line 142. -/
def monthNames : List String :=
  ["Jan", "Feb", "Mar", "Apr", "May", "Jun", "Jul", "Aug", "Sep", "Oct", "Nov", "Dec"]

/-- `monthNames[month]` (line 145); indexing with the `NaN` month gives
`undefined`, modelled as `none`. -/
def monthName (k : Option Nat) : Option String :=
  match k with
  | some m => monthNames[m]?
  | none => none

/-- One value of the `monthlyData` map: `{ name, monthIndex, bookings }`
(line 146). -/
structure MonthEntry where
  name : Option String
  monthIndex : Option Nat
  bookings : Nat
deriving DecidableEq

/-- Lines 146-147 for one confirmed booking:
`if (!monthlyData[month]) monthlyData[month] = {name, monthIndex, bookings: 0};`
`monthlyData[month].bookings += 1;` — create the entry on first sight,
then increment its counter. -/
def bumpMonth (acc : List MonthEntry) (k : Option Nat) : List MonthEntry :=
  if acc.any (fun e => decide (e.monthIndex = k)) then
    acc.map (fun e => if e.monthIndex = k then { e with bookings := e.bookings + 1 } else e)
  else
    acc ++ [⟨monthName k, k, 1⟩]

/-- The `monthlyData` map after the `confirmedBookings.forEach` loop
(lines 140-151), as an insertion-ordered association list. -/
def monthlyData (l : List Booking) : List MonthEntry :=
  (confirmedBookings l).foldl (fun acc b => bumpMonth acc (monthKey b)) []

/-- One value of the `channelData` map: `{ name, revenue }` (line 149). -/
structure ChannelEntry where
  name : String
  revenue : ℚ
deriving DecidableEq

/-- `booking.source || 'Unknown'` (line 148): an absent (or empty, hence
falsy) source is replaced by `"Unknown"`. -/
def srcOf (b : Booking) : String :=
  b.source.getD "Unknown"

/-- Lines 149-150 for one confirmed booking:
`if (!channelData[source]) channelData[source] = {name: source, revenue: 0};`
`channelData[source].revenue += (booking.total_amount || 0);`. -/
def bumpChannel (acc : List ChannelEntry) (s : String) (amt : ℚ) : List ChannelEntry :=
  if acc.any (fun e => decide (e.name = s)) then
    acc.map (fun e => if e.name = s then { e with revenue := e.revenue + amt } else e)
  else
    acc ++ [⟨s, amt⟩]

/-- The `channelData` map after the `confirmedBookings.forEach` loop
(lines 140-151).  The source loop fills `monthlyData` and `channelData`
in the same pass; the two accumulations are independent, so they are
modelled as two folds. -/
def channelData (l : List Booking) : List ChannelEntry :=
  (confirmedBookings l).foldl (fun acc b => bumpChannel acc (srcOf b) (b.total_amount.getD 0)) []

/-- Ordering of the integer-keyed month entries as `Object.values`
enumerates them (ascending numeric key). -/
def monthIdxLe (a b : MonthEntry) : Prop :=
  a.monthIndex.getD 0 ≤ b.monthIndex.getD 0

instance : DecidableRel monthIdxLe := fun _ _ => Nat.decLe _ _

/-- `Object.values(monthlyData)` (line 152): integer-like keys in
ascending order first, then the lone possible string key `"NaN"` (from
an Invalid Date) in insertion order.  The keys of the association list
are pairwise distinct, so sorting the integer-keyed entries by key
produces exactly the enumeration order. -/
def monthObjectValues (m : List MonthEntry) : List MonthEntry :=
  (m.filter (fun e => e.monthIndex.isSome)).insertionSort monthIdxLe
    ++ m.filter (fun e => e.monthIndex.isNone)

/-- The comparator `(a, b) => a.monthIndex - b.monthIndex` of line 152 as
a relation: a numeric comparison when both indexes are numbers; a `NaN`
result is treated as `+0` by `Array.prototype.sort`, i.e. "do not
reorder", modelled as both entries relating to each other. -/
def monthCmpLe (a b : MonthEntry) : Prop :=
  match a.monthIndex, b.monthIndex with
  | some x, some y => x ≤ y
  | _, _ => True

instance : DecidableRel monthCmpLe := fun a b => by
  unfold monthCmpLe
  match a.monthIndex, b.monthIndex with
  | some x, some y => exact Nat.decLe x y
  | some _, none => exact inferInstanceAs (Decidable True)
  | none, some _ => exact inferInstanceAs (Decidable True)
  | none, none => exact inferInstanceAs (Decidable True)

/-- `Object.values(monthlyData).sort((a, b) => a.monthIndex - b.monthIndex)`
(line 152). -/
def bookingsByMonth (l : List Booking) : List MonthEntry :=
  (monthObjectValues (monthlyData l)).insertionSort monthCmpLe

/-- ECMAScript array-index test for a property key, with the index
value: the string is the canonical decimal numeral (digits only, no
leading zero except `"0"` itself) of an integer in `[0, 2^32 - 2]`.
Such keys enumerate before all other string keys, in ascending numeric
order. -/
def arrayIndexVal? (s : String) : Option Nat :=
  if s.toList ≠ []
      ∧ (∀ c ∈ s.toList, '0' ≤ c ∧ c ≤ '9')
      ∧ (s.toList.head? = some '0' → s.toList = ['0']) then
    let v := s.toList.foldl (fun n c => n * 10 + (c.toNat - 48)) 0
    if v ≤ 4294967294 then some v else none
  else none

/-- Whether a property key is an ECMAScript array index. -/
def isArrayIndex (s : String) : Bool :=
  (arrayIndexVal? s).isSome

/-- Ascending numeric order on array-index keys (non-index keys, which
are never compared by this relation in the places it is used, fall back
to index 0). -/
def strIdxLe (a b : String) : Prop :=
  (arrayIndexVal? a).getD 0 ≤ (arrayIndexVal? b).getD 0

instance : DecidableRel strIdxLe := fun _ _ => Nat.decLe _ _

/-- The order `strIdxLe` transported to channel entries via their
`name` key. -/
def chanIdxLe (a b : ChannelEntry) : Prop :=
  (arrayIndexVal? a.name).getD 0 ≤ (arrayIndexVal? b.name).getD 0

instance : DecidableRel chanIdxLe := fun _ _ => Nat.decLe _ _

/-- `Object.values(channelData)` (line 153): ECMAScript own-property
order — array-index-like keys (a source label such as `"5"`) first, in
ascending numeric order, then the remaining string keys in insertion
order; the same rule the month map obeys.  The keys of the association
list are pairwise distinct, so sorting the index-keyed entries by key
produces exactly the enumeration order. -/
def channelObjectValues (m : List ChannelEntry) : List ChannelEntry :=
  (m.filter (fun e => isArrayIndex e.name)).insertionSort chanIdxLe
    ++ m.filter (fun e => !(isArrayIndex e.name))

/-- `Object.values(channelData)` as used on line 153. -/
def revenueByChannel (l : List Booking) : List ChannelEntry :=
  channelObjectValues (channelData l)

/-- The object returned by the `processedData` memo (line 155), with the
fields in source order. -/
structure AggregationResult where
  totalRevenue : ℚ
  totalBookings : Nat
  avgBookingValue : ℚ
  avgNightlyRate : ℚ
  bookingsByMonth : List MonthEntry
  revenueByChannel : List ChannelEntry
  totalNights : ℚ
  avgLengthOfStay : ℚ
  avgLeadTime : ℚ
  cancellationRate : ℚ
  filteredBookings : List Booking
deriving DecidableEq

/-- The metrics aggregator §4.2: lines 121-155 applied to an
already-filtered booking list. -/
def aggregate (l : List Booking) : AggregationResult :=
  ⟨totalRevenue l, totalBookings l, avgBookingValue l, avgNightlyRate l,
    bookingsByMonth l, revenueByChannel l, totalNights l, avgLengthOfStay l,
    avgLeadTime l, cancellationRate l, l⟩

/-- The whole `processedData` computation: date-range filter (lines
114-119) followed by the aggregation (lines 121-155). -/
def processedData (allBookings : List Booking) (startDate endDate : Option Int) :
    AggregationResult :=
  aggregate (filterBookings startDate endDate allBookings)

/-! ### Specification-side definitions

These re-state, in the spec's own words, the quantities the claims
compare the code against. -/

instance (a : JSDate) (p : Int → Prop) [DecidablePred p] :
    Decidable (∃ t : Int, a = some t ∧ p t) :=
  match a with
  | none => isFalse (by simp)
  | some t => decidable_of_iff (p t) (by simp)

/-- Spec §4.1: "keep records with `arrival >= startDate`"; an
unparseable arrival compares as `NaN` and satisfies neither bound. -/
def arrivalGeB (s : Int) (b : Booking) : Bool :=
  decide (∃ t : Int, b.arrival = some t ∧ s ≤ t)

/-- Spec §4.1: "keep records with `arrival <= endDate`". -/
def arrivalLeB (e : Int) (b : Booking) : Bool :=
  decide (∃ t : Int, b.arrival = some t ∧ t ≤ e)

/-- Spec §4.2 step 8: the lead-time contribution of one confirmed
record, `max(leadDays, 0)` when `creationDate` is present and `0` when
it is absent.  Unparseable dates contribute `0`, the malformed-input
default of spec §7. -/
def specLeadContrib (b : Booking) : ℚ :=
  match b.creation_date with
  | none => 0
  | some cd =>
    match b.arrival, cd with
    | some a, some c => max (((a - c : Int) : ℚ) / msPerDay) 0
    | _, _ => 0

/-- Replace the `creation_date` field of a record, leaving every other
field unchanged (used to state that no metric other than the lead time
depends on `creationDate`). -/
def setCreation (f : Booking → Option JSDate) (b : Booking) : Booking :=
  { b with creation_date := f b }

/-- The distinct elements of a list in first-seen order (spec §4.2
steps 10 and 11: "one entry per distinct key", "insertion order =
first-seen order"). -/
def firstOcc {α : Type} [DecidableEq α] : List α → List α
  | [] => []
  | x :: xs => x :: (firstOcc xs).filter (fun y => decide (y ≠ x))

/-- Number of records of a list whose month key is `k`. -/
def monthCount (cs : List Booking) (k : Option Nat) : Nat :=
  (cs.filter (fun b => decide (monthKey b = k))).length

/-- Sum of the (defaulted) amounts of the records with source label `s`
(spec §4.2 step 11: "accumulate revenue keyed by source"). -/
def channelRevenue (cs : List Booking) (s : String) : ℚ :=
  ((cs.filter (fun b => decide (srcOf b = s))).map (fun b => b.total_amount.getD 0)).sum

/-- The monthly series as the spec describes it: one entry per month
index 0-11 with at least one confirmed arrival, carrying the month
name and that month's confirmed-booking count, ascending by index,
zero months absent. -/
def specBookingsByMonth (l : List Booking) : List MonthEntry :=
  ((List.range 12).filter (fun m => decide (0 < monthCount (confirmedBookings l) (some m)))).map
    (fun m => ⟨monthNames[m]?, some m, monthCount (confirmedBookings l) (some m)⟩)

/-- Ascending order on the month keys (`none`, the `NaN` key, compares
through its JavaScript `getD 0` surrogate; it is only ever compared in
positions where it does not occur). -/
def optLe (a b : Option Nat) : Prop :=
  a.getD 0 ≤ b.getD 0

instance : DecidableRel optLe := fun _ _ => Nat.decLe _ _

/-! ### Concrete records used by witnesses and counterexamples -/

/-- A confirmed booking created ten days before arrival. -/
def wLead : Booking :=
  ⟨1, none, some 864000000, some 950400000, some 10, some "Airbnb", "Booked", some (some 0)⟩

/-- A confirmed booking with no `creation_date`. -/
def wNoCd : Booking :=
  ⟨2, none, some 0, some 86400000, some 5, none, "Booked", none⟩

/-- A confirmed booking whose arrival date is unparseable. -/
def wInvalid : Booking :=
  ⟨3, none, none, some 0, some 1, none, "Booked", none⟩

/-- A cancelled booking. -/
def wCancel : Booking :=
  ⟨4, none, some 0, some 0, some 7, some "Direct", "Cancelled", none⟩

/-- A confirmed booking with parseable but misordered dates
(departure one day before arrival). -/
def wMis : Booking :=
  ⟨5, none, some 86400000, some 0, some 3, none, "Booked", none⟩

/-- A confirmed booking whose source label is the array-index string
`"5"`. -/
def wSrc5 : Booking :=
  ⟨6, none, some 0, some 0, some 2, some "5", "Booked", none⟩

/-! ### Helper lemmas -/

theorem foldl_add_map {α : Type} (f : α → ℚ) (l : List α) (init : ℚ) :
    l.foldl (fun acc b => acc + f b) init = init + (l.map f).sum := by
  induction l generalizing init with
  | nil => simp
  | cons a t ih => simp [ih, add_assoc]

theorem ifPos_eq_max (x : ℚ) : (if 0 < x then x else 0) = max x 0 := by
  rcases lt_or_le 0 x with h | h
  · rw [if_pos h, max_eq_left h.le]
  · rw [if_neg (not_lt.mpr h), max_eq_right h]

theorem leadContrib_eq_spec (b : Booking) : leadContrib b = specLeadContrib b := by
  unfold leadContrib specLeadContrib
  cases b.creation_date with
  | none => rfl
  | some cd =>
    cases b.arrival with
    | none => rfl
    | some a =>
      cases cd with
      | none => rfl
      | some c => exact ifPos_eq_max _

theorem jsGe_eq_spec (s : Int) (a : JSDate) :
    jsGe a s = decide (∃ t : Int, a = some t ∧ s ≤ t) := by
  cases a <;> simp [jsGe]

theorem jsLe_eq_spec (e : Int) (a : JSDate) :
    jsLe a e = decide (∃ t : Int, a = some t ∧ t ≤ e) := by
  cases a <;> simp [jsLe]

theorem isSome_of_jsGe {s : Int} {a : JSDate} (h : jsGe a s = true) : a.isSome = true := by
  cases a with
  | none => exact absurd h (by simp [jsGe])
  | some t => rfl

theorem isSome_of_jsLe {e : Int} {a : JSDate} (h : jsLe a e = true) : a.isSome = true := by
  cases a with
  | none => exact absurd h (by simp [jsLe])
  | some t => rfl

theorem confirmed_append_single {b : Booking} (hs : b.status = "Booked") (l : List Booking) :
    confirmedBookings (l ++ [b]) = confirmedBookings l ++ [b] := by
  simp [confirmedBookings, List.filter_append, hs]

/-! ### Claim theorems -/

/-- C5: aggregating the empty booking sequence returns all scalar
fields equal to 0 and both series empty (and the function is total, so
no error can be raised). -/
theorem claim_C5 : aggregate [] = ⟨0, 0, 0, 0, [], [], 0, 0, 0, 0, []⟩ := by
  decide

/-- C8: the three averages are the guarded divisions — division only
happens under a positive-denominator guard and the result is 0
otherwise, so no division by zero is ever performed. -/
theorem claim_C8 (l : List Booking) :
    avgBookingValue l = (if 0 < totalBookings l then totalRevenue l / (totalBookings l : ℚ) else 0)
    ∧ avgNightlyRate l = (if 0 < totalNights l then totalRevenue l / totalNights l else 0)
    ∧ avgLengthOfStay l = (if 0 < totalBookings l then totalNights l / (totalBookings l : ℚ) else 0)
    ∧ (¬ 0 < totalBookings l → avgBookingValue l = 0 ∧ avgLengthOfStay l = 0)
    ∧ (¬ 0 < totalNights l → avgNightlyRate l = 0) := by
  refine ⟨rfl, rfl, rfl, fun h => ⟨?_, ?_⟩, fun h => ?_⟩
  · rw [avgBookingValue, if_neg h]
  · rw [avgLengthOfStay, if_neg h]
  · rw [avgNightlyRate, if_neg h]

/-- C8 witness: at the empty list the guards are false and every
average is 0. -/
theorem claim_C8_witness : avgBookingValue [] = 0 ∧ avgLengthOfStay [] = 0 :=
  (claim_C8 []).2.2.2.1 (by decide)

/-- C2: the cancellation rate is the cancelled count over the length of
the entire filtered set, times 100, when that set is non-empty and 0
otherwise; consequently it always lies within [0, 100]. -/
theorem claim_C2 (l : List Booking) :
    cancellationRate l =
      (if 0 < l.length then
        ((l.filter (fun b => decide (b.status = "Cancelled"))).length : ℚ) / (l.length : ℚ) * 100
      else 0)
    ∧ 0 ≤ cancellationRate l ∧ cancellationRate l ≤ 100 := by
  have hc : cancelledBookings l = l.filter (fun b => decide (b.status = "Cancelled")) := by
    unfold cancelledBookings
    exact List.filter_congr (fun b _ => by by_cases h : b.status = "Cancelled" <;> simp [h])
  refine ⟨by rw [cancellationRate, hc], ?_, ?_⟩
  · rw [cancellationRate]
    split
    · have h100 : (0 : ℚ) ≤ 100 := by norm_num
      exact mul_nonneg (div_nonneg (Nat.cast_nonneg _) (Nat.cast_nonneg _)) h100
    · exact le_refl 0
  · rw [cancellationRate]
    split
    · rename_i h
      have hn : (0 : ℚ) < (l.length : ℚ) := by exact_mod_cast h
      have hle : ((cancelledBookings l).length : ℚ) ≤ (l.length : ℚ) := by
        exact_mod_cast List.length_filter_le _ l
      calc ((cancelledBookings l).length : ℚ) / (l.length : ℚ) * 100
          ≤ 1 * 100 := by
            exact mul_le_mul_of_nonneg_right ((div_le_one hn).mpr hle) (by norm_num)
        _ = 100 := one_mul 100
    · norm_num

/-- C9: the date-range filter is idempotent for every choice of
optional bounds. -/
theorem claim_C9 (s e : Option Int) (l : List Booking) :
    filterBookings s e (filterBookings s e l) = filterBookings s e l := by
  unfold filterBookings
  rw [List.filter_filter]
  exact List.filter_congr (fun b _ => by cases h : filterPred s e b <;> simp [h])

/-- C3: the four-case contract of the date-range filter — both bounds
absent returns the input unchanged; a single bound keeps exactly the
records whose arrival satisfies it; both bounds keep exactly the
records inside the inclusive range; and whenever at least one bound is
present, every surviving record has a parseable arrival (an
unparseable arrival compares as `NaN` and is excluded). -/
theorem claim_C3 (s e : Int) (l : List Booking) :
    filterBookings none none l = l
    ∧ filterBookings (some s) none l = l.filter (arrivalGeB s)
    ∧ filterBookings none (some e) l = l.filter (arrivalLeB e)
    ∧ filterBookings (some s) (some e) l = l.filter (fun b => arrivalGeB s b && arrivalLeB e b)
    ∧ ((filterBookings (some s) none l).all (fun b => b.arrival.isSome)
        && (filterBookings none (some e) l).all (fun b => b.arrival.isSome)
        && (filterBookings (some s) (some e) l).all (fun b => b.arrival.isSome)) = true := by
  refine ⟨?_, ?_, ?_, ?_, ?_⟩
  · exact List.filter_eq_self.mpr (fun b _ => rfl)
  · exact List.filter_congr (fun b _ => jsGe_eq_spec s b.arrival)
  · exact List.filter_congr (fun b _ => jsLe_eq_spec e b.arrival)
  · exact List.filter_congr (fun b _ => by
      rw [show filterPred (some s) (some e) b = (jsGe b.arrival s && jsLe b.arrival e) from rfl,
        jsGe_eq_spec s b.arrival, jsLe_eq_spec e b.arrival]; rfl)
  · rw [Bool.and_eq_true, Bool.and_eq_true]
    refine ⟨⟨List.all_eq_true.mpr ?_, List.all_eq_true.mpr ?_⟩, List.all_eq_true.mpr ?_⟩
    · intro b hb
      exact isSome_of_jsGe (List.mem_filter.mp hb).2
    · intro b hb
      exact isSome_of_jsLe (List.mem_filter.mp hb).2
    · intro b hb
      have h := (List.mem_filter.mp hb).2
      rw [show filterPred (some s) (some e) b = (jsGe b.arrival s && jsLe b.arrival e) from rfl,
        Bool.and_eq_true] at h
      exact isSome_of_jsGe h.1

/-- C10: a confirmed booking with an unparseable arrival or departure
contributes exactly 0 nights (the `NaN` difference is coerced to 0 by
the `|| 0` guard), so `totalNights` is a well-defined (total, finite)
rational for every input; a parseable but misordered pair contributes
its genuine negative difference, which propagates into the sum. -/
theorem claim_C10 (b : Booking) (l : List Booking) :
    ((b.arrival = none ∨ b.departure = none) → nightsContrib b = 0)
    ∧ (∀ a d : Int, b.arrival = some a → b.departure = some d →
        nightsContrib b = ((d - a : Int) : ℚ) / msPerDay)
    ∧ (b.status = "Booked" → totalNights (l ++ [b]) = totalNights l + nightsContrib b) := by
  refine ⟨fun h => ?_, fun a d ha hd => ?_, fun hs => ?_⟩
  · rcases h with h | h <;> cases hd : b.departure <;> simp [nightsContrib, h, hd]
  · simp [nightsContrib, ha, hd]
  · rw [totalNights, totalNights, confirmed_append_single hs, List.foldl_append]
    simp

/-- C10 witness: the unparseable-arrival record contributes 0 nights;
the misordered-dates record contributes the negative difference. -/
theorem claim_C10_witness :
    nightsContrib wInvalid = 0
    ∧ nightsContrib wMis = ((0 - 86400000 : Int) : ℚ) / msPerDay :=
  ⟨(claim_C10 wInvalid []).1 (Or.inl rfl),
    (claim_C10 wMis []).2.1 86400000 0 rfl rfl⟩

/-- C1: the average lead time is the sum, over all confirmed bookings,
of `max(leadDays, 0)` for those with a present `creationDate` and 0
for those without one, divided by the count of all confirmed bookings
when that count is positive and 0 otherwise — so records without a
`creationDate` still count in the denominator and dilute the
average. -/
theorem claim_C1 (l : List Booking) :
    avgLeadTime l =
      (if 0 < totalBookings l then
        ((confirmedBookings l).map specLeadContrib).sum / (totalBookings l : ℚ)
      else 0)
    ∧ ∀ b ∈ confirmedBookings l, b.creation_date = none → specLeadContrib b = 0 := by
  constructor
  · have hsum : totalLeadTime l = ((confirmedBookings l).map specLeadContrib).sum := by
      rw [totalLeadTime, foldl_add_map, zero_add]
      exact congrArg _ (List.map_congr_left (fun b _ => leadContrib_eq_spec b))
    rw [avgLeadTime, hsum]
  · intro b _ hb
    simp [specLeadContrib, hb]

/-- C1 witness: a concrete confirmed booking with no `creationDate`
contributes 0 to the lead-time sum. -/
theorem claim_C1_witness : specLeadContrib wNoCd = 0 :=
  (claim_C1 [wNoCd]).2 wNoCd (by decide) rfl

/-! ### Invariance of every non-lead-time metric under `creation_date` changes -/

theorem confirmed_map_setCreation (f : Booking → Option JSDate) (l : List Booking) :
    confirmedBookings (l.map (setCreation f)) = (confirmedBookings l).map (setCreation f) := by
  rw [confirmedBookings, confirmedBookings, List.filter_map]
  rfl

theorem cancelled_map_setCreation (f : Booking → Option JSDate) (l : List Booking) :
    cancelledBookings (l.map (setCreation f)) = (cancelledBookings l).map (setCreation f) := by
  rw [cancelledBookings, cancelledBookings, List.filter_map]
  rfl

theorem totalRevenue_setCreation (f : Booking → Option JSDate) (l : List Booking) :
    totalRevenue (l.map (setCreation f)) = totalRevenue l := by
  rw [totalRevenue, totalRevenue, confirmed_map_setCreation, List.foldl_map]
  rfl

theorem totalBookings_setCreation (f : Booking → Option JSDate) (l : List Booking) :
    totalBookings (l.map (setCreation f)) = totalBookings l := by
  rw [totalBookings, totalBookings, confirmed_map_setCreation, List.length_map]

theorem totalNights_setCreation (f : Booking → Option JSDate) (l : List Booking) :
    totalNights (l.map (setCreation f)) = totalNights l := by
  rw [totalNights, totalNights, confirmed_map_setCreation, List.foldl_map]
  rfl

theorem cancellationRate_setCreation (f : Booking → Option JSDate) (l : List Booking) :
    cancellationRate (l.map (setCreation f)) = cancellationRate l := by
  rw [cancellationRate, cancellationRate, cancelled_map_setCreation, List.length_map,
    List.length_map]

theorem monthlyData_setCreation (f : Booking → Option JSDate) (l : List Booking) :
    monthlyData (l.map (setCreation f)) = monthlyData l := by
  rw [monthlyData, monthlyData, confirmed_map_setCreation, List.foldl_map]
  rfl

theorem channelData_setCreation (f : Booking → Option JSDate) (l : List Booking) :
    channelData (l.map (setCreation f)) = channelData l := by
  rw [channelData, channelData, confirmed_map_setCreation, List.foldl_map]
  rfl

/-- C4 counterexample: a confirmed booking with absent `creationDate`
is NOT excluded from the lead-time averaging — its presence leaves the
lead-time sum unchanged but changes `avgLeadTimeDays` (here from 10 to
5), because it still counts in the `totalBookings` denominator. -/
theorem claim_C4_cex :
    wNoCd.creation_date = none ∧ wNoCd.status = "Booked"
    ∧ totalLeadTime [wLead, wNoCd] = totalLeadTime [wLead]
    ∧ avgLeadTime [wLead] = 10
    ∧ avgLeadTime [wLead, wNoCd] = 5
    ∧ avgLeadTime [wLead, wNoCd] ≠ avgLeadTime [wLead] := by
  have h1 : avgLeadTime [wLead] = 10 := by
    simp [avgLeadTime, totalLeadTime, totalBookings, confirmedBookings, leadContrib, wLead,
      msPerDay, List.filter_cons, List.foldl_cons]
    norm_num
  have h2 : avgLeadTime [wLead, wNoCd] = 5 := by
    simp [avgLeadTime, totalLeadTime, totalBookings, confirmedBookings, leadContrib, wLead, wNoCd,
      msPerDay, List.filter_cons, List.foldl_cons]
    norm_num
  have h3 : totalLeadTime [wLead, wNoCd] = totalLeadTime [wLead] := by
    simp [totalLeadTime, confirmedBookings, leadContrib, wLead, wNoCd, msPerDay,
      List.filter_cons, List.foldl_cons]
  exact ⟨rfl, rfl, h3, h1, h2, by rw [h1, h2]; norm_num⟩

/-- C4 (amended): a confirmed booking with absent `creationDate` is
excluded from the lead-time SUM only — it contributes 0 to the sum,
still counts in the `totalBookings` averaging denominator (diluting
`avgLeadTimeDays`), and its `creationDate` has no effect on any other
computed metric. -/
theorem claim_C4 (l m : List Booking) (b : Booking) (f : Booking → Option JSDate)
    (hc : b.creation_date = none) (hs : b.status = "Booked") :
    leadContrib b = 0
    ∧ totalLeadTime (l ++ [b]) = totalLeadTime l
    ∧ totalBookings (l ++ [b]) = totalBookings l + 1
    ∧ totalRevenue (m.map (setCreation f)) = totalRevenue m
    ∧ totalBookings (m.map (setCreation f)) = totalBookings m
    ∧ totalNights (m.map (setCreation f)) = totalNights m
    ∧ avgBookingValue (m.map (setCreation f)) = avgBookingValue m
    ∧ avgNightlyRate (m.map (setCreation f)) = avgNightlyRate m
    ∧ avgLengthOfStay (m.map (setCreation f)) = avgLengthOfStay m
    ∧ cancellationRate (m.map (setCreation f)) = cancellationRate m
    ∧ bookingsByMonth (m.map (setCreation f)) = bookingsByMonth m
    ∧ revenueByChannel (m.map (setCreation f)) = revenueByChannel m := by
  have hz : leadContrib b = 0 := by simp [leadContrib, hc]
  refine ⟨hz, ?_, ?_, totalRevenue_setCreation f m, totalBookings_setCreation f m,
    totalNights_setCreation f m, ?_, ?_, ?_, cancellationRate_setCreation f m, ?_, ?_⟩
  · rw [totalLeadTime, totalLeadTime, confirmed_append_single hs, List.foldl_append]
    simp [hz]
  · rw [totalBookings, totalBookings, confirmed_append_single hs, List.length_append,
      List.length_cons, List.length_nil]
  · rw [avgBookingValue, avgBookingValue, totalRevenue_setCreation, totalBookings_setCreation]
  · rw [avgNightlyRate, avgNightlyRate, totalRevenue_setCreation, totalNights_setCreation]
  · rw [avgLengthOfStay, avgLengthOfStay, totalNights_setCreation, totalBookings_setCreation]
  · rw [bookingsByMonth, bookingsByMonth, monthlyData_setCreation]
  · rw [revenueByChannel, revenueByChannel, channelData_setCreation]

/-- C4 witness: the amended statement applied at concrete records. -/
theorem claim_C4_witness :
    leadContrib wNoCd = 0
    ∧ totalLeadTime ([wLead] ++ [wNoCd]) = totalLeadTime [wLead]
    ∧ bookingsByMonth ([wLead, wCancel].map (setCreation (fun _ => none)))
        = bookingsByMonth [wLead, wCancel] := by
  have h := claim_C4 [wLead] [wLead, wCancel] wNoCd (fun _ => none) rfl rfl
  exact ⟨h.1, h.2.1, h.2.2.2.2.2.2.2.2.2.2.1⟩

/-! ### First-seen deduplication -/

theorem mem_firstOcc {α : Type} [DecidableEq α] {y : α} :
    ∀ {l : List α}, y ∈ firstOcc l ↔ y ∈ l := by
  intro l
  induction l with
  | nil => simp [firstOcc]
  | cons x xs ih =>
    by_cases hyx : y = x
    · subst hyx
      simp [firstOcc]
    · simp [firstOcc, List.mem_filter, ih, hyx]

theorem nodup_firstOcc {α : Type} [DecidableEq α] : ∀ (l : List α), (firstOcc l).Nodup := by
  intro l
  induction l with
  | nil => exact List.nodup_nil
  | cons x xs ih =>
    refine List.nodup_cons.mpr ⟨fun hmem => ?_, List.Nodup.filter _ ih⟩
    have := (List.mem_filter.mp hmem).2
    simp at this

/-! ### Characterization of the channel accumulation -/

theorem channelRevenue_cons (b : Booking) (cs : List Booking) (s : String) :
    channelRevenue (b :: cs) s =
      (if srcOf b = s then b.total_amount.getD 0 + channelRevenue cs s else channelRevenue cs s) := by
  unfold channelRevenue
  rw [List.filter_cons]
  split
  · rename_i h
    rw [if_pos (of_decide_eq_true h)]
    simp
  · rename_i h
    rw [if_neg (fun hh => h (decide_eq_true hh))]

theorem foldl_bumpChannel (cs : List Booking) :
    ∀ acc : List ChannelEntry,
      cs.foldl (fun a b => bumpChannel a (srcOf b) (b.total_amount.getD 0)) acc =
        acc.map (fun e => { e with revenue := e.revenue + channelRevenue cs e.name })
          ++ ((firstOcc (cs.map srcOf)).filter
                (fun s => !(acc.any (fun e => decide (e.name = s))))).map
              (fun s => ⟨s, channelRevenue cs s⟩) := by
  induction cs with
  | nil =>
    intro acc
    simp only [List.foldl_nil, List.map_nil, firstOcc, List.filter_nil, List.append_nil]
    induction acc with
    | nil => rfl
    | cons a t iha =>
      cases a
      simp only [List.map_cons, channelRevenue, List.filter_nil] at iha ⊢
      rw [← iha]
      simp
  | cons b cs ih =>
    intro acc
    rw [List.foldl_cons, ih (bumpChannel acc (srcOf b) (b.total_amount.getD 0)), bumpChannel]
    have hfo : firstOcc ((b :: cs).map srcOf)
        = srcOf b :: (firstOcc (cs.map srcOf)).filter (fun y => decide (y ≠ srcOf b)) := rfl
    by_cases hmem : acc.any (fun e => decide (e.name = srcOf b)) = true
    · rw [if_pos hmem]
      have hkeys : ∀ s : String,
          ((acc.map (fun e => if e.name = srcOf b
              then { e with revenue := e.revenue + b.total_amount.getD 0 } else e)).any
            (fun e => decide (e.name = s)))
          = acc.any (fun e => decide (e.name = s)) := by
        intro s
        rw [List.any_map]
        congr 1
        funext e
        by_cases h : e.name = srcOf b <;> simp [h]
      have hmap : (acc.map (fun e => if e.name = srcOf b
              then { e with revenue := e.revenue + b.total_amount.getD 0 } else e)).map
            (fun e => { e with revenue := e.revenue + channelRevenue cs e.name })
          = acc.map (fun e => { e with revenue := e.revenue + channelRevenue (b :: cs) e.name }) := by
        rw [List.map_map]
        refine List.map_congr_left (fun e _ => ?_)
        rcases e with ⟨en, er⟩
        by_cases h : en = srcOf b
        · simp [h, channelRevenue_cons, add_assoc]
        · simp [h, channelRevenue_cons, Ne.symm h]
      have hfilt : (firstOcc (cs.map srcOf)).filter
            (fun s => !((acc.map (fun e => if e.name = srcOf b
                then { e with revenue := e.revenue + b.total_amount.getD 0 } else e)).any
              (fun e => decide (e.name = s))))
          = (firstOcc (cs.map srcOf)).filter
              (fun s => !(acc.any (fun e => decide (e.name = s)))) :=
        List.filter_congr (fun s _ => by rw [hkeys s])
      rw [hmap, hfilt, hfo, List.filter_cons]
      rw [if_neg (by simp [hmem]), List.filter_filter]
      congr 1
      have hfe : ∀ s : String,
          (!(acc.any (fun e => decide (e.name = s))))
            = (!(acc.any (fun e => decide (e.name = s))) && decide (s ≠ srcOf b)) := by
        intro s
        by_cases h : s = srcOf b
        · subst h
          simp [hmem]
        · simp [h]
      rw [List.filter_congr (fun s _ => hfe s)]
      refine List.map_congr_left (fun s hs => ?_)
      have hne : decide (s ≠ srcOf b) = true :=
        (((Bool.and_eq_true _ _).mp (List.mem_filter.mp hs).2)).2
      have hne2 : ¬ (srcOf b = s) := fun hh => (of_decide_eq_true hne) hh.symm
      rw [channelRevenue_cons, if_neg hne2]
    · rw [if_neg hmem]
      have hnotmem : ∀ e ∈ acc, ¬ (e.name = srcOf b) := by
        intro e he
        by_contra hcon
        exact hmem (List.any_eq_true.mpr ⟨e, he, decide_eq_true hcon⟩)
      have hmap : (acc ++ [ChannelEntry.mk (srcOf b) (b.total_amount.getD 0)]).map
            (fun e => { e with revenue := e.revenue + channelRevenue cs e.name })
          = acc.map (fun e => { e with revenue := e.revenue + channelRevenue (b :: cs) e.name })
            ++ [ChannelEntry.mk (srcOf b) (b.total_amount.getD 0 + channelRevenue cs (srcOf b))] := by
        rw [List.map_append]
        congr 1
        refine List.map_congr_left (fun e he => ?_)
        rw [channelRevenue_cons, if_neg (fun hh => hnotmem e he hh.symm)]
      rw [hmap, hfo, List.filter_cons]
      rw [if_pos (by simp [hmem]), List.map_cons, List.append_assoc, List.singleton_append]
      congr 1
      have hhead : ChannelEntry.mk (srcOf b) (channelRevenue (b :: cs) (srcOf b))
          = ChannelEntry.mk (srcOf b) (b.total_amount.getD 0 + channelRevenue cs (srcOf b)) := by
        rw [channelRevenue_cons, if_pos rfl]
      rw [hhead]
      congr 1
      rw [List.filter_filter]
      have hfe : ∀ s : String,
          (!((acc ++ [ChannelEntry.mk (srcOf b) (b.total_amount.getD 0)]).any
              (fun e => decide (e.name = s))))
            = (!(acc.any (fun e => decide (e.name = s))) && decide (s ≠ srcOf b)) := by
        intro s
        rw [List.any_append]
        by_cases h : s = srcOf b
        · subst h
          simp
        · simp [h, Ne.symm h]
      rw [List.filter_congr (fun s _ => hfe s)]
      refine List.map_congr_left (fun s hs => ?_)
      have hne : decide (s ≠ srcOf b) = true :=
        (((Bool.and_eq_true _ _).mp (List.mem_filter.mp hs).2)).2
      have hne2 : ¬ (srcOf b = s) := fun hh => (of_decide_eq_true hne) hh.symm
      rw [channelRevenue_cons, if_neg hne2]

/-! ### Characterization of the month accumulation -/

theorem monthCount_cons (b : Booking) (cs : List Booking) (k : Option Nat) :
    monthCount (b :: cs) k =
      (if monthKey b = k then monthCount cs k + 1 else monthCount cs k) := by
  unfold monthCount
  rw [List.filter_cons]
  split
  · rename_i h
    rw [if_pos (of_decide_eq_true h)]
    rfl
  · rename_i h
    rw [if_neg (fun hh => h (decide_eq_true hh))]

theorem foldl_bumpMonth (cs : List Booking) :
    ∀ acc : List MonthEntry,
      cs.foldl (fun a b => bumpMonth a (monthKey b)) acc =
        acc.map (fun e => { e with bookings := e.bookings + monthCount cs e.monthIndex })
          ++ ((firstOcc (cs.map monthKey)).filter
                (fun k => !(acc.any (fun e => decide (e.monthIndex = k))))).map
              (fun k => ⟨monthName k, k, monthCount cs k⟩) := by
  induction cs with
  | nil =>
    intro acc
    simp only [List.foldl_nil, List.map_nil, firstOcc, List.filter_nil, List.append_nil]
    induction acc with
    | nil => rfl
    | cons a t iha =>
      cases a
      simp only [List.map_cons, monthCount, List.filter_nil] at iha ⊢
      rw [← iha]
      simp
  | cons b cs ih =>
    intro acc
    rw [List.foldl_cons, ih (bumpMonth acc (monthKey b)), bumpMonth]
    have hfo : firstOcc ((b :: cs).map monthKey)
        = monthKey b :: (firstOcc (cs.map monthKey)).filter (fun y => decide (y ≠ monthKey b)) :=
      rfl
    by_cases hmem : acc.any (fun e => decide (e.monthIndex = monthKey b)) = true
    · rw [if_pos hmem]
      have hkeys : ∀ k : Option Nat,
          ((acc.map (fun e => if e.monthIndex = monthKey b
              then { e with bookings := e.bookings + 1 } else e)).any
            (fun e => decide (e.monthIndex = k)))
          = acc.any (fun e => decide (e.monthIndex = k)) := by
        intro k
        rw [List.any_map]
        congr 1
        funext e
        by_cases h : e.monthIndex = monthKey b <;> simp [h]
      have hmap : (acc.map (fun e => if e.monthIndex = monthKey b
              then { e with bookings := e.bookings + 1 } else e)).map
            (fun e => { e with bookings := e.bookings + monthCount cs e.monthIndex })
          = acc.map (fun e => { e with bookings := e.bookings + monthCount (b :: cs) e.monthIndex }) := by
        rw [List.map_map]
        refine List.map_congr_left (fun e _ => ?_)
        rcases e with ⟨nm, mi, bk⟩
        by_cases h : mi = monthKey b
        · subst h
          simp [monthCount_cons]
          omega
        · simp only [Function.comp_apply, if_neg h, monthCount_cons,
            if_neg (fun hh : monthKey b = mi => h hh.symm)]
      have hfilt : (firstOcc (cs.map monthKey)).filter
            (fun k => !((acc.map (fun e => if e.monthIndex = monthKey b
                then { e with bookings := e.bookings + 1 } else e)).any
              (fun e => decide (e.monthIndex = k))))
          = (firstOcc (cs.map monthKey)).filter
              (fun k => !(acc.any (fun e => decide (e.monthIndex = k)))) :=
        List.filter_congr (fun k _ => by rw [hkeys k])
      rw [hmap, hfilt, hfo, List.filter_cons]
      rw [if_neg (by simp [hmem]), List.filter_filter]
      congr 1
      have hfe : ∀ k : Option Nat,
          (!(acc.any (fun e => decide (e.monthIndex = k))))
            = (!(acc.any (fun e => decide (e.monthIndex = k))) && decide (k ≠ monthKey b)) := by
        intro k
        by_cases h : k = monthKey b
        · subst h
          simp [hmem]
        · simp [h]
      rw [List.filter_congr (fun k _ => hfe k)]
      refine List.map_congr_left (fun k hk => ?_)
      have hne : decide (k ≠ monthKey b) = true :=
        (((Bool.and_eq_true _ _).mp (List.mem_filter.mp hk).2)).2
      have hne2 : ¬ (monthKey b = k) := fun hh => (of_decide_eq_true hne) hh.symm
      rw [monthCount_cons, if_neg hne2]
    · rw [if_neg hmem]
      have hnotmem : ∀ e ∈ acc, ¬ (e.monthIndex = monthKey b) := by
        intro e he
        by_contra hcon
        exact hmem (List.any_eq_true.mpr ⟨e, he, decide_eq_true hcon⟩)
      have hmap : (acc ++ [MonthEntry.mk (monthName (monthKey b)) (monthKey b) 1]).map
            (fun e => { e with bookings := e.bookings + monthCount cs e.monthIndex })
          = acc.map (fun e => { e with bookings := e.bookings + monthCount (b :: cs) e.monthIndex })
            ++ [MonthEntry.mk (monthName (monthKey b)) (monthKey b)
                  (1 + monthCount cs (monthKey b))] := by
        rw [List.map_append]
        congr 1
        refine List.map_congr_left (fun e he => ?_)
        rw [monthCount_cons, if_neg (fun hh => hnotmem e he hh.symm)]
      rw [hmap, hfo, List.filter_cons]
      rw [if_pos (by simp [hmem]), List.map_cons, List.append_assoc, List.singleton_append]
      congr 1
      have hhead : MonthEntry.mk (monthName (monthKey b)) (monthKey b)
            (monthCount (b :: cs) (monthKey b))
          = MonthEntry.mk (monthName (monthKey b)) (monthKey b)
              (1 + monthCount cs (monthKey b)) := by
        rw [monthCount_cons, if_pos rfl]
        congr 1
        omega
      rw [hhead]
      congr 1
      rw [List.filter_filter]
      have hfe : ∀ k : Option Nat,
          (!((acc ++ [MonthEntry.mk (monthName (monthKey b)) (monthKey b) 1]).any
              (fun e => decide (e.monthIndex = k))))
            = (!(acc.any (fun e => decide (e.monthIndex = k))) && decide (k ≠ monthKey b)) := by
        intro k
        rw [List.any_append]
        by_cases h : k = monthKey b
        · subst h
          simp
        · simp [h, Ne.symm h]
      rw [List.filter_congr (fun k _ => hfe k)]
      refine List.map_congr_left (fun k hk => ?_)
      have hne : decide (k ≠ monthKey b) = true :=
        (((Bool.and_eq_true _ _).mp (List.mem_filter.mp hk).2)).2
      have hne2 : ¬ (monthKey b = k) := fun hh => (of_decide_eq_true hne) hh.symm
      rw [monthCount_cons, if_neg hne2]

theorem monthlyData_eq (l : List Booking) :
    monthlyData l =
      (firstOcc ((confirmedBookings l).map monthKey)).map
        (fun k => ⟨monthName k, k, monthCount (confirmedBookings l) k⟩) := by
  rw [monthlyData, foldl_bumpMonth]
  simp

theorem channelData_eq (l : List Booking) :
    channelData l =
      (firstOcc ((confirmedBookings l).map srcOf)).map
        (fun s => ⟨s, channelRevenue (confirmedBookings l) s⟩) := by
  rw [channelData, foldl_bumpChannel]
  simp

theorem civilMonth_lt (t : Int) : civilMonth t < 12 := by
  unfold civilMonth
  generalize Int.fdiv t 86400000 = d
  have h1 : 0 ≤ (d + 719468) % 146097 := Int.emod_nonneg _ (by norm_num)
  have h2 : (d + 719468) % 146097 < 146097 := Int.emod_lt_of_pos _ (by norm_num)
  dsimp only
  split <;> omega

theorem exists_eq_map_some {β : Type} {A : List (Option β)}
    (h : ∀ x ∈ A, ∃ v, x = some v) : ∃ vs : List β, A = vs.map some := by
  induction A with
  | nil => exact ⟨[], rfl⟩
  | cons x xs ih =>
    rcases h x (List.mem_cons_self x xs) with ⟨v, rfl⟩
    rcases ih (fun y hy => h y (List.mem_cons_of_mem _ hy)) with ⟨vs, rfl⟩
    exact ⟨v :: vs, rfl⟩

theorem monthCount_pos (cs : List Booking) (k : Option Nat) :
    0 < monthCount cs k ↔ ∃ b ∈ cs, monthKey b = k := by
  rw [monthCount, ← List.countP_eq_length_filter, List.countP_pos_iff]
  simp

/-- C7 (amended): when every confirmed booking's arrival parses, the
monthly series is exactly one entry per month index 0-11 with at least
one confirmed arrival — carrying that month's confirmed count and
name — ascending by index, zero months absent.  (A confirmed booking
with an unparseable arrival instead adds an extra entry under the
`NaN` key; see the counterexample.) -/
theorem claim_C7 (l : List Booking)
    (h : ∀ b ∈ confirmedBookings l, b.arrival.isSome = true) :
    bookingsByMonth l = specBookingsByMonth l := by
  rw [bookingsByMonth, monthlyData_eq l]
  have hsome : ∀ k ∈ firstOcc ((confirmedBookings l).map monthKey),
      ∃ m, k = some m ∧ m < 12 := by
    intro k hk
    rcases List.mem_map.mp (mem_firstOcc.mp hk) with ⟨b, hb, rfl⟩
    rcases Option.isSome_iff_exists.mp (h b hb) with ⟨t, ht⟩
    exact ⟨civilMonth t, by rw [monthKey, ht]; rfl, civilMonth_lt t⟩
  obtain ⟨ms, hms⟩ :=
    exists_eq_map_some (fun x hx => (hsome x hx).elim (fun m hm => ⟨m, hm.1⟩))
  have hmslt : ∀ m ∈ ms, m < 12 := by
    intro m hm
    have hmA : (some m) ∈ firstOcc ((confirmedBookings l).map monthKey) := by
      rw [hms]
      exact (List.mem_map_of_injective (Option.some_injective _)).mpr hm
    rcases hsome _ hmA with ⟨m2, heq, hlt⟩
    cases Option.some.injEq m m2 ▸ heq
    exact hlt
  have hnodup : ms.Nodup := by
    have hnd := nodup_firstOcc ((confirmedBookings l).map monthKey)
    rw [hms] at hnd
    exact List.Nodup.of_map _ hnd
  have hmem_ms : ∀ m : Nat, m ∈ ms ↔ 0 < monthCount (confirmedBookings l) (some m) := by
    intro m
    constructor
    · intro hm
      have hmA : (some m) ∈ firstOcc ((confirmedBookings l).map monthKey) := by
        rw [hms]
        exact (List.mem_map_of_injective (Option.some_injective _)).mpr hm
      rcases List.mem_map.mp (mem_firstOcc.mp hmA) with ⟨b, hb, hbk⟩
      exact (monthCount_pos _ _).mpr ⟨b, hb, hbk⟩
    · intro hcnt
      rcases (monthCount_pos _ _).mp hcnt with ⟨b, hb, hbk⟩
      have hmA : (some m) ∈ firstOcc ((confirmedBookings l).map monthKey) :=
        mem_firstOcc.mpr (List.mem_map.mpr ⟨b, hb, hbk⟩)
      rw [hms] at hmA
      exact (List.mem_map_of_injective (Option.some_injective _)).mp hmA
  have hval : ((firstOcc ((confirmedBookings l).map monthKey)).map
        (fun k => (⟨monthName k, k, monthCount (confirmedBookings l) k⟩ : MonthEntry))).filter
      (fun e => e.monthIndex.isSome)
      = (firstOcc ((confirmedBookings l).map monthKey)).map
          (fun k => ⟨monthName k, k, monthCount (confirmedBookings l) k⟩) := by
    refine List.filter_eq_self.mpr (fun e he => ?_)
    rcases List.mem_map.mp he with ⟨k, hk, rfl⟩
    rcases hsome k hk with ⟨m, rfl, _⟩
    rfl
  have hnone : ((firstOcc ((confirmedBookings l).map monthKey)).map
        (fun k => (⟨monthName k, k, monthCount (confirmedBookings l) k⟩ : MonthEntry))).filter
      (fun e => e.monthIndex.isNone)
      = [] := by
    refine List.filter_eq_nil_iff.mpr (fun e he => ?_)
    rcases List.mem_map.mp he with ⟨k, hk, rfl⟩
    rcases hsome k hk with ⟨m, rfl, _⟩
    simp
  rw [monthObjectValues, hval, hnone, List.append_nil, hms]
  have hyp1 : ∀ a ∈ ms.map some, ∀ b ∈ ms.map some,
      optLe a b ↔ monthIdxLe
        ((fun k => (⟨monthName k, k, monthCount (confirmedBookings l) k⟩ : MonthEntry)) a)
        ((fun k => (⟨monthName k, k, monthCount (confirmedBookings l) k⟩ : MonthEntry)) b) :=
    fun _ _ _ _ => Iff.rfl
  rw [← List.map_insertionSort optLe monthIdxLe _ (ms.map some) hyp1]
  have hyp2 : ∀ a ∈ ms, ∀ b ∈ ms, a ≤ b ↔ optLe (some a) (some b) :=
    fun _ _ _ _ => Iff.rfl
  rw [← List.map_insertionSort (fun a b : Nat => a ≤ b) optLe some ms hyp2]
  have hcore : ms.insertionSort (fun a b : Nat => a ≤ b)
      = (List.range 12).filter
          (fun m => decide (0 < monthCount (confirmedBookings l) (some m))) := by
    refine List.eq_of_perm_of_sorted ?_ (List.sorted_insertionSort _ ms)
      (List.Sorted.filter _ (List.sorted_le_range 12))
    refine (List.perm_insertionSort _ ms).trans ?_
    refine (List.perm_ext_iff_of_nodup hnodup
      (List.Nodup.filter _ (List.nodup_range 12))).mpr ?_
    intro m
    constructor
    · intro hm
      exact List.mem_filter.mpr
        ⟨List.mem_range.mpr (hmslt m hm), decide_eq_true ((hmem_ms m).mp hm)⟩
    · intro hm
      exact (hmem_ms m).mpr (of_decide_eq_true (List.mem_filter.mp hm).2)
  rw [hcore, List.map_map]
  have hspec : specBookingsByMonth l
      = ((List.range 12).filter
          (fun m => decide (0 < monthCount (confirmedBookings l) (some m)))).map
        ((fun k => (⟨monthName k, k, monthCount (confirmedBookings l) k⟩ : MonthEntry)) ∘ some) :=
    rfl
  rw [hspec]
  refine List.Sorted.insertionSort_eq ?_
  refine List.pairwise_map.mpr ?_
  refine List.Pairwise.imp ?_ (List.Sorted.filter _ (List.sorted_le_range 12))
  intro a b hab
  exact hab

/-- C7 witness: on a concrete all-parseable list, the produced monthly
series equals the specification form. -/
theorem claim_C7_witness :
    bookingsByMonth [wLead, wNoCd] = specBookingsByMonth [wLead, wNoCd] :=
  claim_C7 [wLead, wNoCd] (by decide)

/-- C7 counterexample: a confirmed booking with an unparseable arrival
produces an extra `bookingsByMonth` entry whose month index is not a
month 0-11 (the `NaN` key), so the series is not "one entry per month
index (0-11) that has at least one confirmed arrival". -/
theorem claim_C7_cex :
    wInvalid.status = "Booked"
    ∧ bookingsByMonth [wInvalid] = [⟨none, none, 1⟩]
    ∧ specBookingsByMonth [wInvalid] = []
    ∧ bookingsByMonth [wInvalid] ≠ specBookingsByMonth [wInvalid]
    ∧ ∃ e ∈ bookingsByMonth [wInvalid], e.monthIndex = none := by
  decide

end HRD
